import Mathlib

/-!
Verification development for the MCP-remote-research repository.

The client-side orchestrator (`src/client/mcp_client.py`, class
`MinimalOpenAIMCPBot`) and the server-side capability provider
(`src/server/research_server.py`) are shallowly embedded below.
External effects (the OpenAI chat completion call, `json.loads`, and
`session.call_tool`) are abstracted as an environment record of pure
oracles, and the filesystem state consulted by the server handlers is
passed in explicitly; everything else is translated directly from the
Python source.
-/

set_option linter.unusedVariables false

namespace MCPClient

/-- One entry of `message.tool_calls` in an OpenAI chat completion
response: an invocation id, a function name, and the serialized
(JSON-string) argument payload `call.function.arguments`. -/
structure ToolCall where
  id : String
  name : String
  arguments : String
  deriving DecidableEq

/-- The model message `response.choices[0].message`: optional textual
content and the (possibly empty) list of requested tool calls.  A Python
`None`/empty `tool_calls` is the empty list here, matching the truthiness
test `if message.tool_calls:`. -/
structure ModelMessage where
  content : Option String
  tool_calls : List ToolCall
  deriving DecidableEq

/-- One turn of the conversation list `messages` built by
`process_query`: the seed user turn, an assistant turn carrying the
requested tool calls, or a tool-result turn tied to its call id. -/
inductive Turn where
  | user (content : String)
  | assistant (content : Option String) (tool_calls : List ToolCall)
  | tool (tool_call_id : String) (content : String)
  deriving DecidableEq

/-- One item of `mcp_result.content`; the orchestrator only reads its
`.text` field. -/
structure ContentItem where
  text : String
  deriving DecidableEq

/-- Result of `await session.call_tool(...)`: either a normal return
carrying the content list, or a raised exception whose string form
`str(e)` is recorded. -/
inductive CallResult where
  | ok (content : List ContentItem)
  | exn (msg : String)
  deriving DecidableEq

/-- The impure collaborators of `process_query`, as pure oracles.  `α` is
the type of a decoded JSON argument payload; the orchestrator never
inspects it, only passes it through to `call_tool`.
`jsonLoads s = none` models `json.loads(s)` raising `JSONDecodeError`;
`model` models the OpenAI chat completion round-trip; `callTool srv name
args` models `await self.sessions[srv].call_tool(name, arguments=args)`. -/
structure Env (α : Type) where
  model : List Turn → ModelMessage
  jsonLoads : String → Option α
  callTool : String → String → α → CallResult

/-- Python `dict` lookup (`d.get(k)` / `k in d`) on an association list. -/
def dlookup {β : Type} (k : String) : List (String × β) → Option β
  | [] => none
  | (k', v) :: rest => if k' = k then some v else dlookup k rest

/-- Python `dict` assignment `d[k] = v`: overwrite in place if the key is
present, append otherwise. -/
def dinsert {β : Type} (k : String) (v : β) : List (String × β) → List (String × β)
  | [] => [(k, v)]
  | (k', v') :: rest => if k' = k then (k, v) :: rest else (k', v') :: dinsert k v rest

/-- The fields of `MinimalOpenAIMCPBot` that `process_query` reads:
`self.sessions` (only key presence matters to the orchestrator, so we
keep the list of server names holding a live session), `self.tool_to_server`,
and `self.max_iterations` (initialised to 15 in `__init__`). -/
structure ClientState where
  sessions : List String
  tool_to_server : List (String × String)
  max_iterations : Nat
  deriving DecidableEq

/-- `mcp_result.content[0].text if mcp_result.content else "No result"`
(mcp_client.py line 102). -/
def toolResultText (content : List ContentItem) : String :=
  match content with
  | [] => "No result"
  | c :: _ => c.text

/-- An apostrophe, kept out of string literals. -/
def sq : String := "'"

/-- The error string `f"Error: Server '{server_name}' not connected"`. -/
def serverNotConnectedMsg (server_name : String) : String :=
  "Error: Server " ++ sq ++ server_name ++ sq ++ " not connected"

/-- The error string `f"Error: {str(e)}"`. -/
def toolErrorMsg (e : String) : String := "Error: " ++ e

/-- Outcome of executing one entry of `message.tool_calls`
(mcp_client.py lines 83-113).  `errTurn` is a synthesized error-result
turn produced without contacting any server; `called` is a turn produced
after `session.call_tool` was invoked on the named server; `raise` means
an exception escaped this iteration of the loop uncaught — which happens
exactly when `json.loads(call.function.arguments)` fails, since that
statement sits outside the `try`/`except` block. -/
inductive CallStep where
  | errTurn (turn : Turn)
  | called (server : String) (turn : Turn)
  | raise
  deriving DecidableEq

/-- The body of `for call in message.tool_calls` (mcp_client.py lines
83-113): decode the arguments, resolve the owning server via
`self.tool_to_server.get(tool_name, "unknown")`, fetch the session, and
either synthesize a not-connected error or call the tool, converting a
raised exception into an error string. -/
def execToolCall {α : Type} (env : Env α) (st : ClientState) (call : ToolCall) : CallStep :=
  match env.jsonLoads call.arguments with
  | none => .raise
  | some tool_args =>
    let server_name := (dlookup call.name st.tool_to_server).getD "unknown"
    if server_name ∈ st.sessions then
      match env.callTool server_name call.name tool_args with
      | .ok content => .called server_name (.tool call.id (toolResultText content))
      | .exn e => .called server_name (.tool call.id (toolErrorMsg e))
    else
      .errTurn (.tool call.id (serverNotConnectedMsg server_name))

/-- Executing the whole batch of tool calls, appending each result turn
to `messages`; an uncaught decode exception aborts the batch and
propagates (`Except.error`). -/
def execToolCalls {α : Type} (env : Env α) (st : ClientState) :
    List ToolCall → List Turn → Except Unit (List Turn)
  | [], messages => .ok messages
  | call :: rest, messages =>
    match execToolCall env st call with
    | .raise => .error ()
    | .errTurn t => execToolCalls env st rest (messages ++ [t])
    | .called _ t => execToolCalls env st rest (messages ++ [t])

/-- How `process_query` ends: a `return` from the no-tool-calls branch
(carrying `message.content`, printed only when truthy), the
`Max iterations reached` return, falling off the `while` loop without
entering it (possible only when `max_iterations = 0`), or an uncaught
exception propagating out of the coroutine. -/
inductive QueryOutcome where
  | answered (text : Option String)
  | maxIterationsReached
  | exhausted
  | raised
  deriving DecidableEq

/-- What one run of `process_query` produced: its outcome, the number of
model round-trips performed (calls to `self.client.chat.completions.create`),
and the conversation list at the end. -/
structure QueryResult where
  outcome : QueryOutcome
  roundTrips : Nat
  messages : List Turn
  deriving DecidableEq

/-- The `while iteration < self.max_iterations` loop of `process_query`
(mcp_client.py lines 46-124).  `fuel` is the number of loop entries still
permitted, i.e. `max_iterations - iteration`; the recursion maintains
that correspondence, so the `fuel = 0` base case is exactly the `while`
condition failing.  Each loop entry increments `iteration`, performs one
model round-trip, and either returns the final answer (no tool calls),
records the assistant turn and executes the batch, or propagates an
uncaught decode exception; after a batch, `if iteration >= self.max_iterations`
returns the iteration-limit outcome. -/
def processQueryLoop {α : Type} (env : Env α) (st : ClientState) :
    List Turn → Nat → Nat → QueryResult
  | messages, _, 0 => ⟨.exhausted, 0, messages⟩
  | messages, iteration, fuel + 1 =>
    let iter' := iteration + 1
    let message := env.model messages
    match message.tool_calls with
    | [] => ⟨.answered message.content, 1, messages⟩
    | _ :: _ =>
      let messages' := messages ++ [Turn.assistant message.content message.tool_calls]
      match execToolCalls env st message.tool_calls messages' with
      | .error _ => ⟨.raised, 1, messages'⟩
      | .ok messages'' =>
        if iter' ≥ st.max_iterations then ⟨.maxIterationsReached, 1, messages''⟩
        else
          let r := processQueryLoop env st messages'' iter' fuel
          ⟨r.outcome, r.roundTrips + 1, r.messages⟩

/-- `process_query(self, query)` (mcp_client.py lines 40-124): seed the
conversation with one user turn and run the bounded loop. -/
def process_query {α : Type} (env : Env α) (st : ClientState) (query : String) : QueryResult :=
  processQueryLoop env st [Turn.user query] 0 st.max_iterations

/-- A tool advertised by a server, as returned by `session.list_tools()`:
`tool.name`, `tool.description`, `tool.inputSchema`.  The schema type `σ`
is opaque to the client, which copies it through unexamined. -/
structure ToolDesc (σ : Type) where
  name : String
  description : String
  inputSchema : σ
  deriving DecidableEq

/-- The entry appended to `self.all_tools` (mcp_client.py lines 265-272):
the `"function"` member of the OpenAI tool definition
`{"type": "function", "function": {"name": ..., "description": ...,
"parameters": tool.inputSchema}}`. -/
structure OpenAIToolDef (σ : Type) where
  name : String
  description : String
  parameters : σ
  deriving DecidableEq

/-- The tool-related registries of `MinimalOpenAIMCPBot`: `self.all_tools`
and `self.tool_to_server`, both initialised empty in `__init__`. -/
structure Registry (σ : Type) where
  all_tools : List (OpenAIToolDef σ)
  tool_to_server : List (String × String)
  deriving DecidableEq

/-- The registries as `__init__` leaves them. -/
def emptyRegistry (σ : Type) : Registry σ := ⟨[], []⟩

/-- The tool-registration loop of `connect_to_server` (mcp_client.py
lines 254-275): for each advertised tool, set
`self.tool_to_server[tool.name] = server_name` and append the OpenAI
definition to `self.all_tools`.  A server whose connection or
`list_tools()` call failed contributes the empty list (the failure is
caught and only logged). -/
def register_tools {σ : Type} (server_name : String) (tools : List (ToolDesc σ))
    (reg : Registry σ) : Registry σ :=
  tools.foldl
    (fun r tool =>
      ⟨r.all_tools ++ [⟨tool.name, tool.description, tool.inputSchema⟩],
       dinsert tool.name server_name r.tool_to_server⟩)
    reg

/-- Connecting to every configured server in order (`connect_to_servers`
calling `connect_to_server` per entry): each successfully connected
server registers its advertised tools into the shared registries. -/
def connect_all {σ : Type} (servers : List (String × List (ToolDesc σ)))
    (reg : Registry σ) : Registry σ :=
  servers.foldl (fun r p => register_tools p.1 p.2 r) reg

/-- The configuration as `connect_to_servers` (mcp_client.py lines
349-394) sees it: the file may be missing (`FileNotFoundError` raised at
line 356), its text may fail `json.load` (`json.JSONDecodeError`), or it
parses and `servers_config.get("mcpServers", {})` yields a (possibly
empty) name-to-parameters mapping.  `π` is the opaque per-server
connection-parameter object. -/
inductive ServersConfig (π : Type) where
  | missingFile
  | invalidJson
  | ok (servers : List (String × π))

/-- `connect_to_servers` (mcp_client.py lines 349-394), with the
transport-level success of each individual `connect_to_server` call
abstracted by the oracle `connects` (that call catches all of its own
exceptions, so it never raises; it stores a session iff it succeeds).
A missing file or invalid JSON re-raises; an empty `mcpServers` mapping
prints a warning and returns normally (line 366); otherwise, if after the
loop `self.sessions` is empty, `Exception("No servers connected
successfully!")` is raised. -/
def connect_to_servers {π : Type} (connects : String → π → Bool)
    (cfg : ServersConfig π) : Except String Unit :=
  match cfg with
  | .missingFile => .error "Config file not found"
  | .invalidJson => .error "Invalid JSON in config file"
  | .ok servers =>
    if servers.isEmpty then .ok ()
    else
      let sessions := servers.filter fun p => connects p.1 p.2
      if sessions.isEmpty then .error "No servers connected successfully!"
      else .ok ()

end MCPClient

namespace ResearchServer

/-- The normalization applied to one character by
`topic.lower().replace(" ", "_")`: lowercase, then turn a space into an
underscore (`.lower()` never produces or consumes a space, so the
composition acts characterwise). -/
def normChar (c : Char) : Char :=
  let lc := c.toLower
  if lc = ' ' then '_' else lc

/-- `topic.lower().replace(" ", "_")`, the topic-directory normalization
used identically by `search_papers` (research_server.py line 64) and
`get_papers_in_topic` (line 196). -/
def normalize_topic (topic : String) : String :=
  String.mk (topic.data.map normChar)

/-- The cache file path `os.path.join(PAPER_DIR, topic_dir, "papers_info.json")`
computed by `search_papers` (lines 64-68), relative to `PAPER_DIR`. -/
def search_papers_file_path (topic : String) : String :=
  "papers/" ++ normalize_topic topic ++ "/papers_info.json"

/-- The cache file path `os.path.join(PAPER_DIR, topic_path, "papers_info.json")`
computed by `get_papers_in_topic` (lines 196-197), relative to `PAPER_DIR`. -/
def get_papers_in_topic_file_path (topic : String) : String :=
  "papers/" ++ normalize_topic topic ++ "/papers_info.json"

/-- The per-paper record stored under its id in `papers_info.json`
(research_server.py lines 82-88). -/
structure PaperInfo where
  title : String
  authors : List String
  summary : String
  pdf_url : String
  published : String
  deriving DecidableEq

/-- Loading the existing cache (lines 71-75): a missing or
JSON-corrupt file yields the empty dict. -/
def load_papers_info (file : Option (List (String × PaperInfo))) : List (String × PaperInfo) :=
  file.getD []

/-- The write-back loop of `search_papers` (lines 78-88):
`papers_info[paper_id] = {...}` for each fetched paper, merged into the
previously loaded dict, which is then dumped back to the same file. -/
def update_papers_info (papers_info : List (String × PaperInfo))
    (new_papers : List (String × PaperInfo)) : List (String × PaperInfo) :=
  new_papers.foldl (fun acc p => MCPClient.dinsert p.1 p.2 acc) papers_info

/-- Python return value of `get_available_folders`, which can be either
a list (the `return []` at line 166) or a string, despite the declared
`-> str` annotation. -/
inductive FolderResult where
  | pylist (items : List String)
  | pystr (s : String)
  deriving DecidableEq

/-- `get_available_folders` (research_server.py lines 154-179), the
`papers://folders` handler.  `dirExists` models `os.path.exists(PAPER_DIR)`
and `folders` the subdirectory listing computed at line 168.  Note the
trailing `Use @{folder} ...` line interpolates the loop variable left
over from the `for` loop, i.e. the last folder. -/
def get_available_folders (dirExists : Bool) (folders : List String) : FolderResult :=
  if ¬ dirExists then .pylist []
  else
    let content := "# Available Topics\n\n"
    match folders with
    | [] => .pystr (content ++ "No folders found.\n")
    | f :: fs =>
      let content := (f :: fs).foldl (fun acc folder => acc ++ "- " ++ folder ++ "\n") content
      .pystr (content ++ "\nUse @" ++ (f :: fs).getLastD f ++ " to access papers in that topic.\n")

/-- The allow-list built at research_server.py lines 252-255:
`["localhost", "127.0.0.1"]`, plus `RENDER_EXTERNAL_HOSTNAME` when that
environment variable is set. -/
def allowed_hosts (render_hostname : Option String) : List String :=
  match render_hostname with
  | some h => ["localhost", "127.0.0.1"] ++ [h]
  | none => ["localhost", "127.0.0.1"]

/-- `patched_check_host_header` (research_server.py lines 275-277), the
function installed over `mcp.server.transport_security.check_host_header`:
its body is `return True`. -/
def patched_check_host_header (host : String) (allowed : List String) : Bool :=
  true

/-- One character of a topic differs from another only by letter case, or
both are a space/underscore.  This is the claim-side notion of
"case/space variant" query strings. -/
def charVariantB (c d : Char) : Bool :=
  (c.toLower == d.toLower) || ((c == ' ' || c == '_') && (d == ' ' || d == '_'))

/-- Two character sequences are case/space variants of one another:
equal length and pointwise `charVariantB`. -/
def topicVariant : List Char → List Char → Bool
  | [], [] => true
  | c :: cs, d :: ds => charVariantB c d && topicVariant cs ds
  | _, _ => false

end ResearchServer

open MCPClient ResearchServer

/-- The registry invariant of the aggregated tool list: every definition
in `all_tools` has its name mapped by `tool_to_server`. -/
def registryInv {σ : Type} (reg : Registry σ) : Prop :=
  ∀ d ∈ reg.all_tools, (dlookup d.name reg.tool_to_server).isSome

/-- A tool invocation whose serialized argument payload is not valid
JSON. -/
def badArgsCall : ToolCall := ⟨"call_1", "search_papers", "not valid json"⟩

/-- An environment whose model requests `badArgsCall` on every round-trip
and whose JSON decoder rejects every payload (as `json.loads` does on
`badArgsCall.arguments`). -/
def envDecodeFail : Env Unit :=
  ⟨fun _ => ⟨none, [badArgsCall]⟩, fun _ => none, fun _ _ _ => .ok []⟩

/-- A bot state after a successful startup: one connected server named
`research` owning `search_papers`, with the default `max_iterations = 15`. -/
def stDefault : ClientState := ⟨["research"], [("search_papers", "research")], 15⟩

/-- An environment whose model requests one well-formed `search_papers`
call on every round-trip and whose tool calls succeed. -/
def envAlwaysTool : Env Unit :=
  ⟨fun _ => ⟨none, [⟨"call_2", "search_papers", "null"⟩]⟩,
   fun _ => some (), fun _ _ _ => .ok [⟨"ok"⟩]⟩

/-- A tool invocation whose name is mapped by no `tool_to_server` entry. -/
def callMystery : ToolCall := ⟨"call_9", "mystery_tool", "null"⟩

/-- An environment whose tool calls record which server was contacted. -/
def envRecordingServer : Env Unit :=
  ⟨fun _ => ⟨none, []⟩, fun _ => some (),
   fun server name _ => .ok [⟨"contacted " ++ server ++ " for " ++ name⟩]⟩

/-- A reachable bot state in which a configured server is literally named
`unknown`: its session occupies the sentinel key that `process_query`
uses for unmapped tool names. -/
def stUnknownServer : ClientState := ⟨["unknown"], [], 15⟩

/-- A tool invocation of a name absent from `stDefault`'s map. -/
def callUnmapped : ToolCall := ⟨"call_3", "nonexistent_tool", "null"⟩

/-- An environment whose model requests `callUnmapped` on every
round-trip. -/
def envUnmappedTool : Env Unit :=
  ⟨fun _ => ⟨none, [callUnmapped]⟩, fun _ => some (), fun _ _ _ => .ok []⟩

/-- An environment whose model immediately produces a textual final
answer and no tool calls. -/
def envFinalAnswer : Env Unit :=
  ⟨fun _ => ⟨some "Hello there", []⟩, fun _ => some (), fun _ _ _ => .ok []⟩

/-- A mapped, connected tool invocation for `stDefault`. -/
def callSearch : ToolCall := ⟨"call_7", "search_papers", "null"⟩

/-- An environment whose tool calls succeed with a single content item
whose text is the empty string. -/
def envEmptyContent : Env Unit :=
  ⟨fun _ => ⟨none, []⟩, fun _ => some (), fun _ _ _ => .ok [⟨""⟩]⟩

/-- An environment whose tool calls succeed with two content items. -/
def envTwoContent : Env Unit :=
  ⟨fun _ => ⟨none, []⟩, fun _ => some (), fun _ _ _ => .ok [⟨"first item"⟩, ⟨"second item"⟩]⟩

/-- A tool advertised under the name `search_papers`. -/
def toolSearchDesc : ToolDesc Unit := ⟨"search_papers", "Search ArXiv", ()⟩

/-- Two connected servers, `A` and `B`, both advertising a tool named
`search_papers`. -/
def dupServers : List (String × List (ToolDesc Unit)) :=
  [("A", [toolSearchDesc]), ("B", [toolSearchDesc])]

/-- The spec's connection scenario: server `A` advertises `search_papers`
and `extract_info`, server `B` advertises no tools. -/
def abServers : List (String × List (ToolDesc Unit)) :=
  [("A", [⟨"search_papers", "Search ArXiv", ()⟩, ⟨"extract_info", "Extract paper info", ()⟩]),
   ("B", [])]

/-- Looking a key up after a `dict` assignment: the assigned key maps to
the new value, every other key is unchanged. -/
theorem dlookup_dinsert {β : Type} (k k' : String) (v : β) (d : List (String × β)) :
    dlookup k' (dinsert k v d) = if k = k' then some v else dlookup k' d := by
  induction d with
  | nil => simp [dinsert, dlookup]
  | cons p rest ih =>
    obtain ⟨k0, v0⟩ := p
    by_cases h0 : k0 = k
    · subst h0
      simp only [dinsert, if_pos rfl, dlookup]
      by_cases h1 : k0 = k' <;> simp [h1]
    · simp only [dinsert, if_neg h0, dlookup, ih]
      by_cases h1 : k0 = k'
      · subst h1
        have hkk : ¬ k = k0 := fun h => h0 h.symm
        simp [hkk]
      · simp [h1]

/-- A `dict` assignment never removes a key. -/
theorem dlookup_dinsert_isSome {β : Type} (k k' : String) (v : β) (d : List (String × β))
    (h : (dlookup k' d).isSome) : (dlookup k' (dinsert k v d)).isSome := by
  rw [dlookup_dinsert]
  by_cases hk : k = k' <;> simp [hk, h]

/-- Claim C2, counterexample: with the Render hostname set, the host
`evil.example.com` is outside the allow-list, yet the patched validation
check accepts it — the check does not hold "if and only if the host is in
the allow-list". -/
theorem claim_C2_counterexample :
    patched_check_host_header "evil.example.com" (allowed_hosts (some "x.onrender.com")) = true
    ∧ "evil.example.com" ∉ allowed_hosts (some "x.onrender.com") := by
  decide

/-- Claim C2, amended: the allow-list is built exactly as localhost plus
`127.0.0.1` plus the externally-assigned hostname from the environment,
but the installed validation check `patched_check_host_header` accepts
every host string unconditionally; the allow-list is never consulted. -/
theorem claim_C2_amended :
    (∀ host allowed, patched_check_host_header host allowed = true)
    ∧ (∀ h r, h ∈ allowed_hosts r ↔ h = "localhost" ∨ h = "127.0.0.1" ∨ r = some h) := by
  refine ⟨fun _ _ => rfl, fun h r => ?_⟩
  cases r with
  | none => simp [allowed_hosts]
  | some x => simp [allowed_hosts, eq_comm]

/-- Claim C3, counterexample: a valid configuration that enumerates no
servers makes `connect_to_servers` return normally (the early `return`
at mcp_client.py line 366), even though zero servers connected
successfully — startup does not fail fatally in that case. -/
theorem claim_C3_counterexample :
    connect_to_servers (fun (_ : String) (_ : Unit) => false) (ServersConfig.ok [])
      = Except.ok () := rfl

/-- Claim C3, amended: a missing configuration file or invalid JSON
raises, and if the configuration enumerates at least one server but zero
of them connect successfully, `connect_to_servers` raises
`No servers connected successfully!`; a valid configuration enumerating
no servers, however, returns normally. -/
theorem claim_C3_amended {π : Type} (connects : String → π → Bool)
    (servers : List (String × π)) (hne : servers ≠ [])
    (hfail : ∀ p ∈ servers, connects p.1 p.2 = false) :
    connect_to_servers connects (ServersConfig.ok servers)
      = Except.error "No servers connected successfully!"
    ∧ connect_to_servers connects ServersConfig.missingFile
      = Except.error "Config file not found"
    ∧ connect_to_servers connects ServersConfig.invalidJson
      = Except.error "Invalid JSON in config file" := by
  refine ⟨?_, rfl, rfl⟩
  have h1 : servers.isEmpty = false := by simpa [List.isEmpty_eq_false] using hne
  have h2 : (servers.filter fun p => connects p.1 p.2) = [] := by
    rw [List.filter_eq_nil_iff]
    intro a ha
    simp [hfail a ha]
  simp [connect_to_servers, h1, h2]

/-- Claim C3, witness: one configured server that fails to connect. -/
theorem claim_C3_witness :
    connect_to_servers (fun (_ : String) (_ : Unit) => false)
        (ServersConfig.ok [("research", ())])
      = Except.error "No servers connected successfully!"
    ∧ connect_to_servers (fun (_ : String) (_ : Unit) => false) ServersConfig.missingFile
      = Except.error "Config file not found"
    ∧ connect_to_servers (fun (_ : String) (_ : Unit) => false) ServersConfig.invalidJson
      = Except.error "Invalid JSON in config file" :=
  claim_C3_amended _ _ (by decide) (fun _ _ => rfl)

/-- Appending `- folder` lines to an accumulator only extends it on the
right. -/
theorem foldl_dash_prefix :
    ∀ (fs : List String) (init : String),
      ∃ r, fs.foldl (fun acc folder => acc ++ "- " ++ folder ++ "\n") init = init ++ r := by
  intro fs
  induction fs with
  | nil => exact fun init => ⟨"", by simp⟩
  | cons f rest ih =>
    intro init
    obtain ⟨r, hr⟩ := ih (init ++ "- " ++ f ++ "\n")
    refine ⟨"- " ++ f ++ "\n" ++ r, ?_⟩
    rw [List.foldl_cons, hr]
    simp [String.append_assoc]

/-- Claim C9: when the papers directory does not exist,
`get_available_folders` returns the Python list `[]` (in spite of its
`-> str` annotation); in every other case it returns a string beginning
with `# Available Topics`. -/
theorem claim_C9_folders :
    (∀ folders, get_available_folders false folders = .pylist [])
    ∧ (∀ folders, ∃ rest,
        get_available_folders true folders = .pystr ("# Available Topics" ++ rest)) := by
  constructor
  · intro folders
    rfl
  · intro folders
    cases folders with
    | nil => exact ⟨"\n\nNo folders found.\n", by decide⟩
    | cons f fs =>
      obtain ⟨r, hr⟩ := foldl_dash_prefix (f :: fs) "# Available Topics\n\n"
      refine ⟨"\n\n" ++ (r ++ ("\nUse @" ++ (f :: fs).getLastD f ++ " to access papers in that topic.\n")), ?_⟩
      have hsplit : ("# Available Topics\n\n" : String) = "# Available Topics" ++ "\n\n" := rfl
      have hx : ∀ x : String,
          "# Available Topics\n\n" ++ x = "# Available Topics" ++ ("\n\n" ++ x) := by
        intro x
        rw [hsplit, String.append_assoc]
      have h1 : get_available_folders true (f :: fs) =
          FolderResult.pystr ((f :: fs).foldl (fun acc folder => acc ++ "- " ++ folder ++ "\n")
            "# Available Topics\n\n" ++ "\nUse @" ++ (f :: fs).getLastD f
            ++ " to access papers in that topic.\n") := rfl
      rw [h1, hr]
      simp only [String.append_assoc]
      rw [hx]

/-- A tool call whose argument payload decodes is executed without an
uncaught exception. -/
theorem execToolCall_ne_raise {α : Type} (env : Env α) (st : ClientState) (call : ToolCall)
    (h : (env.jsonLoads call.arguments).isSome) : execToolCall env st call ≠ .raise := by
  cases hj : env.jsonLoads call.arguments with
  | none => rw [hj] at h; simp at h
  | some a =>
    simp only [execToolCall, hj]
    split
    · split <;> simp
    · simp

/-- A batch of tool calls whose argument payloads all decode executes to
completion without an uncaught exception. -/
theorem execToolCalls_ok {α : Type} (env : Env α) (st : ClientState) :
    ∀ (calls : List ToolCall) (msgs : List Turn),
      (∀ c ∈ calls, (env.jsonLoads c.arguments).isSome) →
      ∃ msgs', execToolCalls env st calls msgs = .ok msgs' := by
  intro calls
  induction calls with
  | nil => exact fun msgs _ => ⟨msgs, rfl⟩
  | cons c rest ih =>
    intro msgs hd
    have hc : (env.jsonLoads c.arguments).isSome := hd c (List.mem_cons_self c rest)
    have hrest : ∀ x ∈ rest, (env.jsonLoads x.arguments).isSome :=
      fun x hx => hd x (List.mem_cons_of_mem c hx)
    simp only [execToolCalls]
    cases hstep : execToolCall env st c with
    | raise => exact absurd hstep (execToolCall_ne_raise env st c hc)
    | errTurn t => exact ih (msgs ++ [t]) hrest
    | called s t => exact ih (msgs ++ [t]) hrest

/-- When the model requests at least one tool call on every round-trip
and every requested payload decodes, the loop runs its fuel out and ends
in the iteration-limit state, performing one model round-trip per unit
of fuel. -/
theorem processQueryLoop_limit {α : Type} (env : Env α) (st : ClientState)
    (hm : ∀ msgs, (env.model msgs).tool_calls ≠ [])
    (hd : ∀ msgs c, c ∈ (env.model msgs).tool_calls → (env.jsonLoads c.arguments).isSome) :
    ∀ (fuel iteration : Nat) (msgs : List Turn),
      1 ≤ fuel → iteration + fuel = st.max_iterations →
      (processQueryLoop env st msgs iteration fuel).outcome = .maxIterationsReached ∧
      (processQueryLoop env st msgs iteration fuel).roundTrips = fuel := by
  intro fuel
  induction fuel with
  | zero => intro iteration msgs h _; exact (Nat.not_succ_le_zero 0 h).elim
  | succ f ih =>
    intro iteration msgs hge hsum
    simp only [processQueryLoop]
    cases hmc : (env.model msgs).tool_calls with
    | nil => exact absurd hmc (hm msgs)
    | cons c cs =>
      obtain ⟨msgs', hok⟩ := execToolCalls_ok env st (c :: cs)
        (msgs ++ [Turn.assistant (env.model msgs).content (c :: cs)])
        (fun x hx => hd msgs x (by rw [hmc]; exact hx))
      simp only [hok]
      by_cases hf : f = 0
      · subst hf
        have hcond : iteration + 1 ≥ st.max_iterations := by omega
        rw [if_pos hcond]
        exact ⟨rfl, rfl⟩
      · have hcond : ¬ iteration + 1 ≥ st.max_iterations := by omega
        rw [if_neg hcond]
        have hif := ih (iteration + 1) msgs' (by omega) (by omega)
        exact ⟨hif.1, by simp only [hif.2]⟩

/-- Claim C1 (the code at the failing input): with a model response whose
tool invocation carries an argument payload that is not valid JSON, the
`json.loads` at mcp_client.py line 85 — which sits outside the
`try`/`except` — raises out of `process_query` after a single round-trip;
no error-result tool turn is appended and the loop does not continue. -/
theorem claim_C1_decode_failure_raises :
    process_query envDecodeFail stDefault "find papers" =
      ⟨.raised, 1, [Turn.user "find papers", Turn.assistant none [badArgsCall]]⟩ := by
  decide

/-- Claim C4, counterexample: a model that requests a tool call on every
round-trip, but whose argument payload does not decode, makes
`process_query` throw on the first round-trip — it neither performs
`max_iterations = 15` round-trips nor reaches the iteration-limit
terminal state. -/
theorem claim_C4_counterexample :
    stDefault.max_iterations = 15
    ∧ (process_query envDecodeFail stDefault "hi").outcome = .raised
    ∧ (process_query envDecodeFail stDefault "hi").roundTrips = 1 := by
  decide

/-- Claim C4, amended: given maximum iteration count `max_iterations`
(default 15), a model that requests at least one tool call on every
round-trip, and argument payloads that all decode successfully,
`process_query` performs exactly `max_iterations` model round-trips and
stops in the iteration-limit terminal state without throwing and without
a final answer. -/
theorem claim_C4_iteration_limit {α : Type} (env : Env α) (st : ClientState) (q : String)
    (hmax : 1 ≤ st.max_iterations)
    (hm : ∀ msgs, (env.model msgs).tool_calls ≠ [])
    (hd : ∀ s, (env.jsonLoads s).isSome) :
    (process_query env st q).outcome = .maxIterationsReached
    ∧ (process_query env st q).roundTrips = st.max_iterations :=
  processQueryLoop_limit env st hm (fun _ c _ => hd c.arguments)
    st.max_iterations 0 [Turn.user q] hmax (by omega)

/-- Claim C4, witness: a concrete always-tool-calling model with the
default limit of 15. -/
theorem claim_C4_witness :
    1 ≤ stDefault.max_iterations
    ∧ ((process_query envAlwaysTool stDefault "hi").outcome = .maxIterationsReached
       ∧ (process_query envAlwaysTool stDefault "hi").roundTrips = stDefault.max_iterations) :=
  ⟨by decide, claim_C4_iteration_limit envAlwaysTool stDefault "hi" (by decide)
    (fun msgs => List.cons_ne_nil _ _) (fun s => rfl)⟩

/-- Claim C6: if the first model response contains no tool invocations
and non-empty textual content, `process_query` terminates after exactly
one model round-trip with that text as the final answer, leaving only
the seed user turn in the conversation. -/
theorem claim_C6_final_answer {α : Type} (env : Env α) (st : ClientState) (q t : String)
    (hmax : 1 ≤ st.max_iterations)
    (hnc : (env.model [Turn.user q]).tool_calls = [])
    (hct : (env.model [Turn.user q]).content = some t)
    (hne : t ≠ "") :
    process_query env st q = ⟨.answered (some t), 1, [Turn.user q]⟩ := by
  unfold process_query
  cases hmi : st.max_iterations with
  | zero => omega
  | succ n => simp only [processQueryLoop, hnc, hct]

/-- Claim C6, witness: a model that immediately answers `Hello there`. -/
theorem claim_C6_witness :
    1 ≤ stDefault.max_iterations
    ∧ (envFinalAnswer.model [Turn.user "hi"]).tool_calls = []
    ∧ (envFinalAnswer.model [Turn.user "hi"]).content = some "Hello there"
    ∧ "Hello there" ≠ ""
    ∧ process_query envFinalAnswer stDefault "hi"
        = ⟨.answered (some "Hello there"), 1, [Turn.user "hi"]⟩ :=
  ⟨by decide, rfl, rfl, by decide,
    claim_C6_final_answer envFinalAnswer stDefault "hi" "Hello there"
      (by decide) rfl rfl (by decide)⟩

/-- Claim C5, counterexample: in the reachable state where a connected
server is literally named `unknown`, a tool invocation whose name has no
entry in the name-to-server map is dispatched to that server via
`session.call_tool` — a server IS contacted, contradicting the claim's
"without contacting any server". -/
theorem claim_C5_counterexample :
    dlookup callMystery.name stUnknownServer.tool_to_server = none
    ∧ execToolCall envRecordingServer stUnknownServer callMystery =
        .called "unknown" (.tool "call_9" "contacted unknown for mystery_tool") := by
  decide

/-- Claim C5, amended: provided the invocation's argument payload decodes
and no connected server is named `unknown`, a tool invocation whose name
has no entry in the name-to-server map yields a synthesized
not-connected error-result turn without contacting any server and
without raising; likewise an invocation whose mapped server has no live
session yields such a turn; the batch completes normally, and with such
a model the loop still advances through all its round-trips. -/
theorem claim_C5_unmapped_tool {α : Type} (env : Env α) (st : ClientState) (call : ToolCall)
    (hmap : dlookup call.name st.tool_to_server = none)
    (hunk : "unknown" ∉ st.sessions)
    (hdec : (env.jsonLoads call.arguments).isSome) :
    execToolCall env st call = .errTurn (.tool call.id (serverNotConnectedMsg "unknown"))
    ∧ (∀ msgs, execToolCalls env st [call] msgs
        = .ok (msgs ++ [Turn.tool call.id (serverNotConnectedMsg "unknown")]))
    ∧ (∀ (call2 : ToolCall) (server : String),
        dlookup call2.name st.tool_to_server = some server → server ∉ st.sessions →
        (env.jsonLoads call2.arguments).isSome →
        execToolCall env st call2 = .errTurn (.tool call2.id (serverNotConnectedMsg server)))
    ∧ (∀ q, 1 ≤ st.max_iterations → (∀ msgs, env.model msgs = ⟨none, [call]⟩) →
        (process_query env st q).outcome = .maxIterationsReached
        ∧ (process_query env st q).roundTrips = st.max_iterations) := by
  obtain ⟨a, ha⟩ := Option.isSome_iff_exists.mp hdec
  have hstep : execToolCall env st call
      = .errTurn (.tool call.id (serverNotConnectedMsg "unknown")) := by
    simp only [execToolCall, ha, hmap, Option.getD_none]
    rw [if_neg hunk]
  refine ⟨hstep, fun msgs => by simp only [execToolCalls, hstep], ?_, fun q hmax hmodel => ?_⟩
  · intro call2 server hmap2 hns hdec2
    obtain ⟨a2, ha2⟩ := Option.isSome_iff_exists.mp hdec2
    simp only [execToolCall, ha2, hmap2, Option.getD_some]
    rw [if_neg hns]
  · exact processQueryLoop_limit env st
      (fun msgs => by rw [hmodel msgs]; exact List.cons_ne_nil _ _)
      (fun msgs c hc => by
        rw [hmodel msgs] at hc
        simp only [List.mem_singleton] at hc
        rw [hc]
        exact hdec)
      st.max_iterations 0 [Turn.user q] hmax (by omega)

/-- Claim C5, witness: an unmapped tool name in the default state. -/
theorem claim_C5_witness :
    dlookup callUnmapped.name stDefault.tool_to_server = none
    ∧ "unknown" ∉ stDefault.sessions
    ∧ (envUnmappedTool.jsonLoads callUnmapped.arguments).isSome
    ∧ (execToolCall envUnmappedTool stDefault callUnmapped
        = .errTurn (.tool callUnmapped.id (serverNotConnectedMsg "unknown"))
       ∧ (∀ msgs, execToolCalls envUnmappedTool stDefault [callUnmapped] msgs
           = .ok (msgs ++ [Turn.tool callUnmapped.id (serverNotConnectedMsg "unknown")]))
       ∧ (∀ (call2 : ToolCall) (server : String),
           dlookup call2.name stDefault.tool_to_server = some server
           → server ∉ stDefault.sessions
           → (envUnmappedTool.jsonLoads call2.arguments).isSome
           → execToolCall envUnmappedTool stDefault call2
               = .errTurn (.tool call2.id (serverNotConnectedMsg server)))
       ∧ (∀ q, 1 ≤ stDefault.max_iterations
            → (∀ msgs, envUnmappedTool.model msgs = ⟨none, [callUnmapped]⟩)
            → (process_query envUnmappedTool stDefault q).outcome = .maxIterationsReached
              ∧ (process_query envUnmappedTool stDefault q).roundTrips
                  = stDefault.max_iterations)) :=
  ⟨by decide, by decide, by decide,
    claim_C5_unmapped_tool envUnmappedTool stDefault callUnmapped
      (by decide) (by decide) (by decide)⟩

/-- Claim C10, counterexample: a successfully executed tool call whose
result content's first item has empty text is recorded as a tool-result
turn with the empty string as content — the recorded content is NOT
always a non-empty string. -/
theorem claim_C10_counterexample :
    execToolCall envEmptyContent stDefault callSearch
      = .called "research" (.tool "call_7" "")
    ∧ String.isEmpty "" = true := by
  decide

/-- Claim C10, amended: for every successfully executed tool call, the
recorded tool-result turn content is exactly the text of the first
content item, or the literal `No result` when the content list is empty;
the recorded content can be empty when the first item's text is empty. -/
theorem claim_C10_first_content_text {α : Type} (env : Env α) (st : ClientState)
    (call : ToolCall) (args : α) (server : String) (content : List ContentItem)
    (hdec : env.jsonLoads call.arguments = some args)
    (hmap : dlookup call.name st.tool_to_server = some server)
    (hs : server ∈ st.sessions)
    (hcall : env.callTool server call.name args = .ok content) :
    execToolCall env st call = .called server (.tool call.id (toolResultText content))
    ∧ toolResultText [] = "No result"
    ∧ (∀ c cs, toolResultText (c :: cs) = c.text) := by
  refine ⟨?_, rfl, fun c cs => rfl⟩
  simp only [execToolCall, hdec, hmap, Option.getD_some]
  rw [if_pos hs]
  simp only [hcall]

/-- Claim C10, witness: a successful call returning two content items;
only the first item's text is recorded. -/
theorem claim_C10_witness :
    envTwoContent.jsonLoads callSearch.arguments = some ()
    ∧ dlookup callSearch.name stDefault.tool_to_server = some "research"
    ∧ "research" ∈ stDefault.sessions
    ∧ envTwoContent.callTool "research" callSearch.name ()
        = .ok [⟨"first item"⟩, ⟨"second item"⟩]
    ∧ (execToolCall envTwoContent stDefault callSearch
        = .called "research" (.tool callSearch.id (toolResultText [⟨"first item"⟩, ⟨"second item"⟩]))
       ∧ toolResultText [] = "No result"
       ∧ (∀ c cs, toolResultText (c :: cs) = c.text)) :=
  ⟨rfl, by decide, by decide, rfl,
    claim_C10_first_content_text envTwoContent stDefault callSearch () "research"
      [⟨"first item"⟩, ⟨"second item"⟩] rfl (by decide) (by decide) rfl⟩

/-- Pointwise case/space variant characters normalize identically. -/
theorem normChar_eq_of_charVariantB (c d : Char) (h : charVariantB c d = true) :
    normChar c = normChar d := by
  simp only [charVariantB, Bool.or_eq_true, Bool.and_eq_true, beq_iff_eq] at h
  rcases h with h | ⟨hc, hd1⟩
  · simp [normChar, h]
  · rcases hc with hc | hc <;> rcases hd1 with hd1 | hd1 <;>
      subst hc <;> subst hd1 <;> decide

/-- Case/space variant character sequences normalize identically. -/
theorem topicVariant_map_normChar :
    ∀ (cs ds : List Char), topicVariant cs ds = true → cs.map normChar = ds.map normChar := by
  intro cs
  induction cs with
  | nil =>
    intro ds h
    cases ds with
    | nil => rfl
    | cons d ds => exact absurd h Bool.false_ne_true
  | cons c cs ih =>
    intro ds h
    cases ds with
    | nil => exact absurd h Bool.false_ne_true
    | cons d ds =>
      simp only [topicVariant, Bool.and_eq_true] at h
      simp only [List.map_cons, normChar_eq_of_charVariantB c d h.1, ih ds h.2]

/-- Claim C7: query strings differing only in letter case or in spaces
versus underscores resolve to the same normalized cache path in
`search_papers` and the `papers://{topic}` resource; and writing new
search results merges by paper id into the existing cache — every
previously stored id remains present, and an entry changes only when the
same id is rewritten. -/
theorem claim_C7_cache_roundtrip (t1 t2 : String)
    (hvar : topicVariant t1.data t2.data = true) :
    search_papers_file_path t1 = get_papers_in_topic_file_path t2
    ∧ (∀ (existing new_papers : List (String × PaperInfo)) (k : String),
        (dlookup k existing).isSome →
        (dlookup k (update_papers_info existing new_papers)).isSome)
    ∧ (∀ (existing new_papers : List (String × PaperInfo)) (k : String),
        k ∉ new_papers.map Prod.fst →
        dlookup k (update_papers_info existing new_papers) = dlookup k existing) := by
  refine ⟨?_, ?_, ?_⟩
  · have hnorm : normalize_topic t1 = normalize_topic t2 := by
      unfold normalize_topic
      rw [topicVariant_map_normChar t1.data t2.data hvar]
    unfold search_papers_file_path get_papers_in_topic_file_path
    rw [hnorm]
  · intro existing new_papers
    induction new_papers generalizing existing with
    | nil => exact fun k h => h
    | cons p rest ih =>
      intro k h
      exact ih (dinsert p.1 p.2 existing) k (dlookup_dinsert_isSome p.1 k p.2 existing h)
  · intro existing new_papers
    induction new_papers generalizing existing with
    | nil => exact fun k _ => rfl
    | cons p rest ih =>
      intro k hk
      have hk1 : k ∉ rest.map Prod.fst := fun hm => hk (List.mem_cons_of_mem _ hm)
      have hkp : ¬ p.1 = k := by
        intro he
        apply hk
        rw [List.map_cons, ← he]
        exact List.mem_cons_self _ _
      calc dlookup k (update_papers_info existing (p :: rest))
          = dlookup k (update_papers_info (dinsert p.1 p.2 existing) rest) := rfl
        _ = dlookup k (dinsert p.1 p.2 existing) := ih (dinsert p.1 p.2 existing) k hk1
        _ = dlookup k existing := by rw [dlookup_dinsert, if_neg hkp]

/-- Claim C7, witness: the spec's own pair of variant topics, and
concrete cache contents. -/
theorem claim_C7_witness :
    topicVariant "quantum computing".data "Quantum Computing".data = true
    ∧ (search_papers_file_path "quantum computing"
        = get_papers_in_topic_file_path "Quantum Computing"
       ∧ (∀ (existing new_papers : List (String × PaperInfo)) (k : String),
           (dlookup k existing).isSome →
           (dlookup k (update_papers_info existing new_papers)).isSome)
       ∧ (∀ (existing new_papers : List (String × PaperInfo)) (k : String),
           k ∉ new_papers.map Prod.fst →
           dlookup k (update_papers_info existing new_papers) = dlookup k existing)) :=
  ⟨by decide, claim_C7_cache_roundtrip "quantum computing" "Quantum Computing" (by decide)⟩

/-- Looking a name up after registering one server's tools: names
advertised by that server map to it, all others are untouched. -/
theorem register_tools_lookup {σ : Type} (s : String) :
    ∀ (ts : List (ToolDesc σ)) (r : Registry σ) (n : String),
      dlookup n (register_tools s ts r).tool_to_server
        = if ts.any (fun t => t.name == n) then some s
          else dlookup n r.tool_to_server := by
  intro ts
  induction ts with
  | nil => intro r n; simp [register_tools]
  | cons t rest ih =>
    intro r n
    have hstep : register_tools s (t :: rest) r
        = register_tools s rest
            ⟨r.all_tools ++ [⟨t.name, t.description, t.inputSchema⟩],
             dinsert t.name s r.tool_to_server⟩ := rfl
    rw [hstep, ih]
    by_cases hrest : rest.any (fun t => t.name == n) = true
    · simp [hrest, List.any_cons]
    · simp only [Bool.not_eq_true] at hrest
      by_cases hn : t.name = n
      · simp [hrest, hn, List.any_cons, dlookup_dinsert]
      · simp [hrest, hn, List.any_cons, dlookup_dinsert]

/-- Registering one server's tools appends their OpenAI definitions to
the aggregated list. -/
theorem register_tools_all_tools {σ : Type} (s : String) :
    ∀ (ts : List (ToolDesc σ)) (r : Registry σ),
      (register_tools s ts r).all_tools
        = r.all_tools ++ ts.map (fun t => ⟨t.name, t.description, t.inputSchema⟩) := by
  intro ts
  induction ts with
  | nil => intro r; simp [register_tools]
  | cons t rest ih =>
    intro r
    have hstep : register_tools s (t :: rest) r
        = register_tools s rest
            ⟨r.all_tools ++ [⟨t.name, t.description, t.inputSchema⟩],
             dinsert t.name s r.tool_to_server⟩ := rfl
    rw [hstep, ih]
    simp

/-- Connecting to further servers never removes an aggregated tool
definition. -/
theorem connect_all_tools_mono {σ : Type} :
    ∀ (servers : List (String × List (ToolDesc σ))) (r : Registry σ) (d : OpenAIToolDef σ),
      d ∈ r.all_tools → d ∈ (connect_all servers r).all_tools := by
  intro servers
  induction servers with
  | nil => exact fun r d h => h
  | cons p rest ih =>
    intro r d h
    exact ih _ d (by rw [register_tools_all_tools]; exact List.mem_append_left _ h)

/-- Every advertised tool of every connected server appears in the
aggregated list. -/
theorem connect_all_mem_tool {σ : Type} :
    ∀ (servers : List (String × List (ToolDesc σ))) (r : Registry σ)
      (p : String × List (ToolDesc σ)) (t : ToolDesc σ),
      p ∈ servers → t ∈ p.2 →
      (⟨t.name, t.description, t.inputSchema⟩ : OpenAIToolDef σ)
        ∈ (connect_all servers r).all_tools := by
  intro servers
  induction servers with
  | nil => intro r p t hp; exact absurd hp (List.not_mem_nil p)
  | cons q rest ih =>
    intro r p t hp ht
    rcases List.mem_cons.mp hp with hpq | htail
    · subst hpq
      exact connect_all_tools_mono rest (register_tools p.1 p.2 r) _
        (by rw [register_tools_all_tools]
            exact List.mem_append_right _ (List.mem_map.mpr ⟨t, ht, rfl⟩))
    · exact ih _ p t htail ht

/-- Connecting servers that advertise no tool named `n` leaves `n`'s
mapping untouched. -/
theorem connect_all_lookup_preserved {σ : Type} :
    ∀ (servers : List (String × List (ToolDesc σ))) (r : Registry σ) (n : String),
      (∀ p ∈ servers, ∀ t ∈ p.2, t.name ≠ n) →
      dlookup n (connect_all servers r).tool_to_server = dlookup n r.tool_to_server := by
  intro servers
  induction servers with
  | nil => intro r n _; rfl
  | cons p rest ih =>
    intro r n hno
    have h1 : dlookup n (register_tools p.1 p.2 r).tool_to_server
        = dlookup n r.tool_to_server := by
      rw [register_tools_lookup]
      have hany : p.2.any (fun t => t.name == n) = false := by
        rw [List.any_eq_false]
        intro t ht
        simp [hno p (List.mem_cons_self p rest) t ht]
      rw [hany]
      simp
    calc dlookup n (connect_all (p :: rest) r).tool_to_server
        = dlookup n (connect_all rest (register_tools p.1 p.2 r)).tool_to_server := rfl
      _ = dlookup n r.tool_to_server := by
          rw [ih _ n (fun q hq => hno q (List.mem_cons_of_mem p hq)), h1]

/-- With tool names globally unique across the federation, each
advertised tool name maps to its advertising server. -/
theorem connect_all_lookup_owner {σ : Type} :
    ∀ (servers : List (String × List (ToolDesc σ))) (r : Registry σ)
      (p : String × List (ToolDesc σ)) (t : ToolDesc σ),
      ((servers.map fun q => q.2.map ToolDesc.name).flatten).Nodup →
      p ∈ servers → t ∈ p.2 →
      dlookup t.name (connect_all servers r).tool_to_server = some p.1 := by
  intro servers
  induction servers with
  | nil => intro r p t _ hp; exact absurd hp (List.not_mem_nil p)
  | cons q rest ih =>
    intro r p t hnd hp ht
    rw [List.map_cons, List.flatten_cons, List.nodup_append] at hnd
    obtain ⟨hnd1, hnd2, hdisj⟩ := hnd
    rcases List.mem_cons.mp hp with hpq | htail
    · subst hpq
      have hreg : dlookup t.name (register_tools p.1 p.2 r).tool_to_server = some p.1 := by
        rw [register_tools_lookup]
        have hany : p.2.any (fun x => x.name == t.name) = true :=
          List.any_eq_true.mpr ⟨t, ht, by simp⟩
        rw [hany]
        simp
      have hnames : ∀ q0 ∈ rest, ∀ x ∈ q0.2, x.name ≠ t.name := by
        intro q0 hq0 x hx heq
        apply hdisj (List.mem_map.mpr ⟨t, ht, rfl⟩)
        exact List.mem_flatten.mpr
          ⟨q0.2.map ToolDesc.name, List.mem_map.mpr ⟨q0, hq0, rfl⟩,
           List.mem_map.mpr ⟨x, hx, heq⟩⟩
      calc dlookup t.name (connect_all (p :: rest) r).tool_to_server
          = dlookup t.name (connect_all rest (register_tools p.1 p.2 r)).tool_to_server := rfl
        _ = some p.1 := by rw [connect_all_lookup_preserved rest _ t.name hnames, hreg]
    · exact ih (register_tools q.1 q.2 r) p t hnd2 htail ht

/-- Registering a server's tools preserves the registry invariant. -/
theorem register_tools_inv {σ : Type} (s : String) (ts : List (ToolDesc σ))
    (r : Registry σ) (hinv : registryInv r) : registryInv (register_tools s ts r) := by
  intro d hd
  rw [register_tools_all_tools] at hd
  rw [register_tools_lookup]
  rcases List.mem_append.mp hd with hold | hnew
  · by_cases hany : ts.any (fun t => t.name == d.name) = true <;>
      simp [hany, hinv d hold]
  · obtain ⟨t, ht, rfl⟩ := List.mem_map.mp hnew
    have hany : ts.any (fun x =>
        x.name == (⟨t.name, t.description, t.inputSchema⟩ : OpenAIToolDef σ).name) = true :=
      List.any_eq_true.mpr ⟨t, ht, by simp⟩
    simp [hany]

/-- Claim C8, counterexample: server `A` connected and advertised
`search_papers`, but because server `B` later advertised the same name,
the name-to-server map sends `search_papers` to `B`, not to its owning
server `A` — last registration wins. -/
theorem claim_C8_counterexample :
    ("A", [toolSearchDesc]) ∈ dupServers
    ∧ toolSearchDesc ∈ [toolSearchDesc]
    ∧ dlookup toolSearchDesc.name
        (connect_all dupServers (emptyRegistry Unit)).tool_to_server = some "B"
    ∧ some "B" ≠ some "A" := by
  decide

/-- Claim C8, amended: provided tool names are unique across all
connected servers (as the spec's data model assumes), every advertised
tool of every successfully connected server appears in the aggregated
tool list and its name maps to its owning server; and unconditionally,
in every reachable registry state — the empty initial state and any state
obtained by further registrations — every aggregated tool name has an
entry in the map. -/
theorem claim_C8_aggregation {σ : Type} (servers : List (String × List (ToolDesc σ)))
    (hnodup : ((servers.map fun p => p.2.map ToolDesc.name).flatten).Nodup) :
    (∀ p ∈ servers, ∀ t ∈ p.2,
      (∃ d ∈ (connect_all servers (emptyRegistry σ)).all_tools,
          d.name = t.name ∧ d.description = t.description ∧ d.parameters = t.inputSchema)
      ∧ dlookup t.name (connect_all servers (emptyRegistry σ)).tool_to_server = some p.1)
    ∧ registryInv (emptyRegistry σ)
    ∧ (∀ (s : String) (ts : List (ToolDesc σ)) (r : Registry σ),
        registryInv r → registryInv (register_tools s ts r)) := by
  refine ⟨?_, fun d hd => absurd hd (List.not_mem_nil d), register_tools_inv⟩
  intro p hp t ht
  refine ⟨⟨⟨t.name, t.description, t.inputSchema⟩,
    connect_all_mem_tool servers (emptyRegistry σ) p t hp ht, rfl, rfl, rfl⟩, ?_⟩
  exact connect_all_lookup_owner servers (emptyRegistry σ) p t hnodup hp ht

/-- Claim C8, witness: the spec's two-server scenario, server `A` with
`search_papers` and `extract_info`, server `B` with no tools. -/
theorem claim_C8_witness :
    ((abServers.map fun p => p.2.map ToolDesc.name).flatten).Nodup
    ∧ ((∀ p ∈ abServers, ∀ t ∈ p.2,
        (∃ d ∈ (connect_all abServers (emptyRegistry Unit)).all_tools,
            d.name = t.name ∧ d.description = t.description ∧ d.parameters = t.inputSchema)
        ∧ dlookup t.name (connect_all abServers (emptyRegistry Unit)).tool_to_server = some p.1)
       ∧ registryInv (emptyRegistry Unit)
       ∧ (∀ (s : String) (ts : List (ToolDesc Unit)) (r : Registry Unit),
           registryInv r → registryInv (register_tools s ts r))) :=
  ⟨by decide, claim_C8_aggregation abServers (by decide)⟩
